import Mathlib

/-!
# Verification of the schlussel OAuth token-lifecycle engine

Shallow embedding of the parts of `tuist/schlussel` (Rust) that the
specification's claims are about:

* `src/session.rs` — `Token`, `Session`, `Token::is_expired`
* `src/oauth.rs`   — `OAuthClient::convert_token_response`, `exchange_code`,
  `poll_for_device_token`, `TokenRefresher::{refresh_with_file_lock,
  refresh_in_process, do_refresh, get_valid_token_with_threshold,
  should_refresh}`
* `src/pkce.rs`    — `Pkce::generate` (with a full SHA-256 and the
  URL-safe no-padding base64 encoder the crate uses)
* `src/callback.rs`— `handle_request`, `parse_query_params`,
  the local `urlencoding::decode`
* `src/lock.rs`    — `RefreshLockManager::lock_path`

Modelling conventions:

* Wall-clock time is an explicit `now : Nat` argument (Unix seconds),
  matching the code's `SystemTime::now().duration_since(UNIX_EPOCH).as_secs()`.
* The credential store (`SessionStorage`) is modelled as a pure map
  `String → Option _`; the reference in-memory backend never fails, and
  no claim here depends on storage-error propagation.
* The HTTP transport is an oracle value (`HttpResult`) handed to the
  function under scrutiny; network refreshes are counted explicitly.
* The `f64` threshold arithmetic of `should_refresh` is modelled over `ℚ`;
  all quantities involved (`expires_in`, remaining seconds, thresholds
  such as 0.8) are exact in both semantics at the points the claims test.
* Cross-process file locking serializes the body of
  `refresh_with_file_lock`; the race of two processes is therefore
  modelled as sequential composition of the two lock-protected bodies.
-/

namespace Schlussel

/-- `Token` from `src/session.rs` (epoch seconds for the two expiry fields). -/
structure Token where
  access_token : String
  refresh_token : Option String
  token_type : String
  expires_in : Option Nat
  expires_at : Option Nat
  scope : Option String
  deriving Repr, DecidableEq

/-- `Session` from `src/session.rs`. -/
structure Session where
  state : String
  code_verifier : String
  created_at : Nat
  domain : Option String
  deriving Repr, DecidableEq

/-- The wire-level token response (`TokenResponse` in `src/oauth.rs`). -/
structure TokenResponse where
  access_token : String
  refresh_token : Option String
  token_type : String
  expires_in : Option Nat
  scope : Option String
  deriving Repr, DecidableEq

/-- The error taxonomy of `src/error.rs` (the variants the embedded code
reaches; transport and JSON failures are folded into `HttpError`). -/
inductive OAuthError where
  | HttpError (msg : String)
  | StorageError (msg : String)
  | InvalidState
  | AuthorizationDenied
  | DeviceCodeExpired
  | OAuthErrorResponse (error : String) (description : Option String)
  | NoRefreshToken
  | InvalidResponse (msg : String)
  | MissingField (name : String)
  deriving Repr, DecidableEq

/-- Outcome of one POST to the token endpoint, as the code observes it:
a transport failure, a decodable OAuth error body on non-success status,
or a decodable `TokenResponse` on success. -/
inductive HttpResult where
  | transportError (msg : String)
  | errorResponse (error : String) (description : Option String)
  | success (response : TokenResponse)
  deriving Repr, DecidableEq

/-- `Token::is_expired` (`src/session.rs`): expired iff `expires_at` is
present and `now >= expires_at`; a token without `expires_at` never expires. -/
def Token.is_expired (t : Token) (now : Nat) : Bool :=
  match t.expires_at with
  | some e => decide (now ≥ e)
  | none => false

/-- `OAuthClient::convert_token_response` (`src/oauth.rs`):
`expires_at = now + expires_in` when `expires_in` is present, absent otherwise. -/
def convert_token_response (r : TokenResponse) (now : Nat) : Token :=
  { access_token := r.access_token
    refresh_token := r.refresh_token
    token_type := r.token_type
    expires_in := r.expires_in
    expires_at := r.expires_in.map (fun exp => now + exp)
    scope := r.scope }

/-- Body of `OAuthClient::refresh_token` / the success-vs-error handling every
token-endpoint POST performs in `src/oauth.rs`. -/
def token_endpoint_result (http : HttpResult) (now : Nat) : Except OAuthError Token :=
  match http with
  | .transportError e => .error (.HttpError e)
  | .errorResponse err desc => .error (.OAuthErrorResponse err desc)
  | .success r => .ok (convert_token_response r now)

/-! ## Proactive threshold refresh (`TokenRefresher::should_refresh`,
`get_valid_token_with_threshold`) -/

/-- `TokenRefresher::should_refresh` (`src/oauth.rs`), with the `f64`
arithmetic over `ℚ`.  `expires_at.saturating_sub(now)` is `Nat` subtraction. -/
def should_refresh (t : Token) (threshold : ℚ) (now : Nat) : Bool :=
  if t.is_expired now then true
  else
    match t.expires_at, t.expires_in with
    | some expAt, some dur =>
        decide (((dur : ℚ) - ((expAt - now : Nat) : ℚ)) / (dur : ℚ) ≥ threshold)
    | _, _ => false

/-- `threshold.clamp(0.0, 1.0)` from `get_valid_token_with_threshold`. -/
def clamp01 (threshold : ℚ) : ℚ := min (max threshold 0) 1

/-- Observable outcome of `get_valid_token_with_threshold`: the token was
missing, the refresh path (`refresh_token_for_key`) was entered, or the
stored token was returned as-is. -/
inductive ThresholdOutcome where
  | notFound
  | refreshPath
  | returned (t : Token)
  deriving Repr, DecidableEq

/-- `TokenRefresher::get_valid_token_with_threshold` (`src/oauth.rs`), up to
the point where it either returns the stored token or enters
`refresh_token_for_key`. -/
def get_valid_token_with_threshold (stored : Option Token) (threshold : ℚ)
    (now : Nat) : ThresholdOutcome :=
  let th := clamp01 threshold
  match stored with
  | none => .notFound
  | some t => if should_refresh t th now then .refreshPath else .returned t

/-! ## Refresh coordination (`TokenRefresher` in `src/oauth.rs`) -/

/-- Result of one lock-protected refresh body: the returned value, the token
store it leaves behind, and how many network refresh calls it made. -/
structure RefreshOutcome where
  result : Except OAuthError Token
  tokens : String → Option Token
  networkCalls : Nat

/-- `TokenRefresher::refresh_with_file_lock` (`src/oauth.rs`).  The named file
lock acquired on entry serializes this whole body system-wide for `key`;
what is modelled is the body as it runs under the lock: re-read the token,
return it unrefreshed if the re-read token is not expired, otherwise perform
exactly one network refresh and persist its result.  `http rt` is the
token-endpoint response to a `refresh_token` grant carrying `rt`. -/
def refresh_with_file_lock (tokens : String → Option Token)
    (http : String → HttpResult) (key : String) (now : Nat) : RefreshOutcome :=
  match tokens key with
  | none => ⟨.error (.InvalidResponse "Token not found"), tokens, 0⟩
  | some token =>
    if token.is_expired now = false then
      ⟨.ok token, tokens, 0⟩
    else
      match token.refresh_token with
      | none => ⟨.error .NoRefreshToken, tokens, 0⟩
      | some rt =>
        match token_endpoint_result (http rt) now with
        | .error e => ⟨.error e, tokens, 1⟩
        | .ok newToken =>
            ⟨.ok newToken, Function.update tokens key (some newToken), 1⟩

/-- `TokenRefresher::do_refresh` (`src/oauth.rs`): one network refresh, and
persist the new token on success. -/
def do_refresh (tokens : String → Option Token) (http : String → HttpResult)
    (key rt : String) (now : Nat) :
    Except OAuthError Token × (String → Option Token) :=
  match token_endpoint_result (http rt) now with
  | .error e => (.error e, tokens)
  | .ok newToken => (.ok newToken, Function.update tokens key (some newToken))

/-- State seen by `TokenRefresher::refresh_in_process`: the
`refresh_in_progress` flag map and the token store.  An absent map entry
reads as `false` (`.get(key).copied().unwrap_or(false)` / `remove`). -/
structure InProcState where
  inProgress : String → Bool
  tokens : String → Option Token

structure InProcOutcome where
  result : Except OAuthError Token
  state : InProcState

/-- `TokenRefresher::refresh_in_process` (`src/oauth.rs`) for one caller.
Returns `none` for the waiter path (flag already set), whose sleep-and-poll
loop only terminates through another thread's actions and so has no meaning
in this single-caller model; every other path is modelled exactly: fetch the
current token, fail with `NoRefreshToken` if it has no refresh token, set
the in-progress flag, run `do_refresh`, clear the flag whatever the result,
return the result. -/
def refresh_in_process (s : InProcState) (http : String → HttpResult)
    (key : String) (now : Nat) : Option InProcOutcome :=
  match s.tokens key with
  | none => some ⟨.error (.InvalidResponse "Token not found"), s⟩
  | some current =>
    match current.refresh_token with
    | none => some ⟨.error .NoRefreshToken, s⟩
    | some rt =>
      if s.inProgress key then
        none
      else
        let flagged : InProcState :=
          ⟨Function.update s.inProgress key true, s.tokens⟩
        let refreshed := do_refresh flagged.tokens http key rt now
        some ⟨refreshed.1,
          ⟨Function.update flagged.inProgress key false, refreshed.2⟩⟩

/-! ## Code exchange (`OAuthClient::exchange_code`, `src/oauth.rs`) -/

/-- `OAuthClient::exchange_code`: re-fetch the `Session` stored under
`state` (failing with `InvalidState` when absent), POST the
`authorization_code` grant, and only on a successful exchange delete the
session and convert the response.  Returns the result together with the
session store it leaves behind. -/
def exchange_code (sessions : String → Option Session) (http : HttpResult)
    (state : String) (now : Nat) :
    Except OAuthError Token × (String → Option Session) :=
  match sessions state with
  | none => (.error .InvalidState, sessions)
  | some _session =>
    match http with
    | .transportError e => (.error (.HttpError e), sessions)
    | .errorResponse err desc => (.error (.OAuthErrorResponse err desc), sessions)
    | .success r =>
        (.ok (convert_token_response r now), Function.update sessions state none)

/-! ## Device poll loop (`OAuthClient::poll_for_device_token`, `src/oauth.rs`) -/

/-- One scripted token-endpoint response inside the device poll loop. -/
inductive PollResponse where
  | success (r : TokenResponse)
  | transportError (msg : String)
  | errorCode (error : String) (description : Option String)
  deriving Repr, DecidableEq

/-- Terminal outcome of the poll loop; `exhausted` marks the point where the
response script ran out (the loop itself would keep polling). -/
inductive PollResult where
  | token (t : Token)
  | failure (e : OAuthError)
  | exhausted
  deriving Repr, DecidableEq

/-- `DeviceAuthorizationResponse` (`src/oauth.rs`), the fields the poll
loop reads. -/
structure DeviceAuthorizationResponse where
  device_code : String
  expires_in : Nat
  interval : Nat
  deriving Repr, DecidableEq

/-- The loop of `poll_for_device_token`.  Each iteration: check the deadline
(`now > expiration` fails with `DeviceCodeExpired`), sleep for `interval`
seconds (time advances, the slept duration is recorded in the returned
trace), then issue one poll and dispatch on the response:
`authorization_pending` retries with the interval unchanged, `slow_down`
retries with the interval increased by 5, `access_denied` / `expired_token`
/ anything else terminate.  Requests themselves are modelled as
instantaneous. -/
def pollLoop (expiration : Nat) :
    List PollResponse → Nat → Nat → PollResult × List Nat
  | responses, now, interval =>
    if now > expiration then (.failure .DeviceCodeExpired, [])
    else
      match responses with
      | [] => (.exhausted, [interval])
      | r :: rest =>
        match r with
        | .success tr => (.token (convert_token_response tr (now + interval)), [interval])
        | .transportError e => (.failure (.HttpError e), [interval])
        | .errorCode err desc =>
          if err = "authorization_pending" then
            let next := pollLoop expiration rest (now + interval) interval
            (next.1, interval :: next.2)
          else if err = "slow_down" then
            let next := pollLoop expiration rest (now + interval) (interval + 5)
            (next.1, interval :: next.2)
          else if err = "access_denied" then (.failure .AuthorizationDenied, [interval])
          else if err = "expired_token" then (.failure .DeviceCodeExpired, [interval])
          else (.failure (.OAuthErrorResponse err desc), [interval])

/-- `OAuthClient::poll_for_device_token`: the deadline is fixed once, at
entry, as `now + expires_in`; the initial interval is the one the device
authorization carried. -/
def poll_for_device_token (auth : DeviceAuthorizationResponse) (start : Nat)
    (responses : List PollResponse) : PollResult × List Nat :=
  pollLoop (start + auth.expires_in) responses start auth.interval

/-! ## PKCE (`src/pkce.rs`)

`Pkce::generate` draws 32 random bytes, base64url-encodes them without
padding into the verifier, and base64url-encodes the SHA-256 digest of the
verifier's ASCII bytes into the challenge.  The `base64` crate's
`URL_SAFE_NO_PAD` engine and the `sha2` crate's SHA-256 are embedded in
full below. -/

/-- The URL-safe base64 alphabet (`A–Z a–z 0–9 - _`). -/
def b64urlChar (n : Nat) : Char :=
  "ABCDEFGHIJKLMNOPQRSTUVWXYZabcdefghijklmnopqrstuvwxyz0123456789-_".data.getD n 'A'

/-- URL-safe base64 without padding, on a list of bytes: 3-byte groups map
to 4 alphabet characters; a trailing group of 1 or 2 bytes maps to 2 or 3
characters and no `=` padding is emitted. -/
def b64urlEncode : List Nat → List Char
  | [] => []
  | [a] => [b64urlChar (a / 4), b64urlChar (a % 4 * 16)]
  | [a, b] => [b64urlChar (a / 4), b64urlChar (a % 4 * 16 + b / 16),
      b64urlChar (b % 16 * 4)]
  | a :: b :: c :: rest =>
      b64urlChar (a / 4) :: b64urlChar (a % 4 * 16 + b / 16) ::
      b64urlChar (b % 16 * 4 + c / 64) :: b64urlChar (c % 64) ::
      b64urlEncode rest

/-! SHA-256 (FIPS 180-4), on byte lists, words as `Nat` reduced mod `2^32`. -/

/-- Right rotation of a 32-bit word. -/
def rotr32 (n x : Nat) : Nat := (x / 2 ^ n + x % 2 ^ n * 2 ^ (32 - n)) % 2 ^ 32

/-- Bitwise complement of a 32-bit word. -/
def not32 (x : Nat) : Nat := 2 ^ 32 - 1 - x % 2 ^ 32

def sha256Ch (e f g : Nat) : Nat := Nat.xor (Nat.land e f) (Nat.land (not32 e) g)

def sha256Maj (a b c : Nat) : Nat :=
  Nat.xor (Nat.xor (Nat.land a b) (Nat.land a c)) (Nat.land b c)

def sha256BigSigma0 (x : Nat) : Nat :=
  Nat.xor (Nat.xor (rotr32 2 x) (rotr32 13 x)) (rotr32 22 x)

def sha256BigSigma1 (x : Nat) : Nat :=
  Nat.xor (Nat.xor (rotr32 6 x) (rotr32 11 x)) (rotr32 25 x)

def sha256SmallSigma0 (x : Nat) : Nat :=
  Nat.xor (Nat.xor (rotr32 7 x) (rotr32 18 x)) (x / 2 ^ 3)

def sha256SmallSigma1 (x : Nat) : Nat :=
  Nat.xor (Nat.xor (rotr32 17 x) (rotr32 19 x)) (x / 2 ^ 10)

/-- Round constants `K` of FIPS 180-4, written in decimal. -/
def sha256K : List Nat :=
  [1116352408, 1899447441, 3049323471, 3921009573, 961987163,
   1508970993, 2453635748, 2870763221, 3624381080, 310598401,
   607225278, 1426881987, 1925078388, 2162078206, 2614888103,
   3248222580, 3835390401, 4022224774, 264347078, 604807628,
   770255983, 1249150122, 1555081692, 1996064986, 2554220882,
   2821834349, 2952996808, 3210313671, 3336571891, 3584528711,
   113926993, 338241895, 666307205, 773529912, 1294757372,
   1396182291, 1695183700, 1986661051, 2177026350, 2456956037,
   2730485921, 2820302411, 3259730800, 3345764771, 3516065817,
   3600352804, 4094571909, 275423344, 430227734, 506948616,
   659060556, 883997877, 958139571, 1322822218, 1537002063,
   1747873779, 1955562222, 2024104815, 2227730452, 2361852424,
   2428436474, 2756734187, 3204031479, 3329325298]

/-- Initial hash value `H⁰` of FIPS 180-4, written in decimal. -/
def sha256H0 : List Nat :=
  [1779033703, 3144134277, 1013904242, 2773480762,
   1359893119, 2600822924, 528734635, 1541459225]

/-- One step of message-schedule extension, on the schedule kept in
reverse order (most recent word first). -/
def sha256ExtendRev (wrev : List Nat) : Nat :=
  (sha256SmallSigma1 (wrev.getD 1 0) + wrev.getD 6 0 +
   sha256SmallSigma0 (wrev.getD 14 0) + wrev.getD 15 0) % 2 ^ 32

/-- Full 64-word message schedule of one block (given as 16 words). -/
def sha256Schedule (block : List Nat) : List Nat :=
  ((List.range 48).foldl (fun wrev _ => sha256ExtendRev wrev :: wrev)
    block.reverse).reverse

/-- One compression round; the state is the 8-word list `[a,b,c,d,e,f,g,h]`. -/
def sha256Round (s : List Nat) (wk : Nat × Nat) : List Nat :=
  let a := s.getD 0 0
  let b := s.getD 1 0
  let c := s.getD 2 0
  let d := s.getD 3 0
  let e := s.getD 4 0
  let f := s.getD 5 0
  let g := s.getD 6 0
  let h := s.getD 7 0
  let t1 := (h + sha256BigSigma1 e + sha256Ch e f g + wk.1 + wk.2) % 2 ^ 32
  let t2 := (sha256BigSigma0 a + sha256Maj a b c) % 2 ^ 32
  [(t1 + t2) % 2 ^ 32, a, b, c, (d + t1) % 2 ^ 32, e, f, g]

/-- Compress one 16-word block into the running hash. -/
def sha256Compress (h : List Nat) (block : List Nat) : List Nat :=
  let final := ((sha256Schedule block).zip sha256K).foldl sha256Round h
  (h.zip final).map (fun p => (p.1 + p.2) % 2 ^ 32)

/-- Big-endian 8-byte encoding of the bit length. -/
def len64be (n : Nat) : List Nat :=
  [n / 2 ^ 56 % 256, n / 2 ^ 48 % 256, n / 2 ^ 40 % 256, n / 2 ^ 32 % 256,
   n / 2 ^ 24 % 256, n / 2 ^ 16 % 256, n / 2 ^ 8 % 256, n % 256]

/-- SHA-256 padding: `0x80`, zeros to 56 mod 64, then the 64-bit bit length. -/
def sha256Pad (msg : List Nat) : List Nat :=
  let L := msg.length
  let zeros := (119 - L % 64) % 64
  msg ++ 0x80 :: List.replicate zeros 0 ++ len64be (8 * L)

/-- Big-endian 4-byte groups to 32-bit words. -/
def bytesToWords : List Nat → List Nat
  | a :: b :: c :: d :: rest =>
      (a * 2 ^ 24 + b * 2 ^ 16 + c * 2 ^ 8 + d) :: bytesToWords rest
  | _ => []

/-- 32-bit words back to big-endian bytes. -/
def wordsToBytes : List Nat → List Nat
  | [] => []
  | w :: rest =>
      w / 2 ^ 24 % 256 :: w / 2 ^ 16 % 256 :: w / 2 ^ 8 % 256 :: w % 256 ::
      wordsToBytes rest

/-- Split a (padded) byte list into 64-byte blocks. -/
def chunks64 (l : List Nat) : List (List Nat) :=
  if h : l = [] then []
  else (bytesToWords (l.take 64)) :: chunks64 (l.drop 64)
termination_by l.length
decreasing_by
  simp only [List.length_drop]
  exact Nat.sub_lt (List.length_pos.mpr h) (by norm_num)

/-- SHA-256 of a byte list. -/
def sha256 (msg : List Nat) : List Nat :=
  wordsToBytes ((chunks64 (sha256Pad msg)).foldl sha256Compress sha256H0)

/-- `Pkce` (`src/pkce.rs`); the two strings are kept as character lists. -/
structure Pkce where
  code_verifier : List Char
  code_challenge : List Char
  deriving Repr, DecidableEq

/-- `Pkce::generate` (`src/pkce.rs`) as a function of the 32 random bytes
drawn from the thread RNG: the verifier is the unpadded URL-safe base64 of
those bytes, the challenge the unpadded URL-safe base64 of the SHA-256
digest of the verifier's bytes (the verifier is ASCII, so its UTF-8 bytes
are its characters' code points). -/
def Pkce.generate (randomBytes : List Nat) : Pkce :=
  let code_verifier := b64urlEncode randomBytes
  let code_challenge := b64urlEncode (sha256 (code_verifier.map Char.toNat))
  ⟨code_verifier, code_challenge⟩

/-- `Pkce::code_challenge_method` (`src/pkce.rs`): the constant `"S256"`. -/
def Pkce.code_challenge_method : List Char := "S256".data

/-- Index of a character in the URL-safe base64 alphabet (inverse of
`b64urlChar`; used only to state and prove that the encoding is injective). -/
def b64Index (c : Char) : Nat :=
  "ABCDEFGHIJKLMNOPQRSTUVWXYZabcdefghijklmnopqrstuvwxyz0123456789-_".data.findIdx
    (fun x => x == c)

/-- Left inverse of `b64urlEncode` on byte lists (proof tool, not part of
the program). -/
def b64urlDecode : List Char → List Nat
  | [] => []
  | [_] => []
  | [w, x] => [b64Index w * 4 + b64Index x / 16]
  | [w, x, y] =>
      [b64Index w * 4 + b64Index x / 16, b64Index x % 16 * 16 + b64Index y / 4]
  | w :: x :: y :: z :: rest =>
      (b64Index w * 4 + b64Index x / 16) ::
      (b64Index x % 16 * 16 + b64Index y / 4) ::
      (b64Index y % 4 * 64 + b64Index z) ::
      b64urlDecode rest

/-! ## Redirect listener (`src/callback.rs`) -/

/-- Value of one hex digit, as `char::to_digit(16)` style classification. -/
def hexDigitVal (c : Char) : Option Nat :=
  if '0' ≤ c ∧ c ≤ '9' then some (c.toNat - '0'.toNat)
  else if 'a' ≤ c ∧ c ≤ 'f' then some (c.toNat - 'a'.toNat + 10)
  else if 'A' ≤ c ∧ c ≤ 'F' then some (c.toNat - 'A'.toNat + 10)
  else none

/-- Digit run of `u8::from_str_radix(_, 16)`: non-empty, hex digits only,
accumulated with the u8 overflow check. -/
def parseHexDigitsU8 (ds : List Char) : Option Nat :=
  if ds = [] then none
  else
    ds.foldl
      (fun acc c =>
        match acc, hexDigitVal c with
        | some a, some v => if a * 16 + v < 256 then some (a * 16 + v) else none
        | _, _ => none)
      (some 0)

/-- `u8::from_str_radix(s, 16)`: only an optional leading `+` is stripped
(for an unsigned type a `-` is not a sign — it reaches the digit loop and
fails as an invalid digit, exactly as any other non-hex character does),
then a non-empty hex digit run whose value fits in a `u8`. -/
def fromStrRadix16U8 (s : List Char) : Option Nat :=
  match s with
  | '+' :: ds => parseHexDigitsU8 ds
  | ds => parseHexDigitsU8 ds

/-- The loop of the local `urlencoding::decode` in `src/callback.rs`: `%`
consumes up to two following characters and parses them with
`u8::from_str_radix(_, 16)` — on success the byte is pushed as a character,
on failure the `%` and the consumed characters are pushed literally; `+`
becomes a space; everything else is copied. -/
def percentDecode : List Char → List Char
  | [] => []
  | '%' :: a :: b :: rest =>
      (match fromStrRadix16U8 [a, b] with
       | some v => [Char.ofNat v]
       | none => ['%', a, b]) ++ percentDecode rest
  | ['%', a] =>
      match fromStrRadix16U8 [a] with
      | some v => [Char.ofNat v]
      | none => ['%', a]
  | ['%'] => ['%']
  | '+' :: rest => ' ' :: percentDecode rest
  | c :: rest => c :: percentDecode rest

/-- `urlencoding::decode` (`src/callback.rs`): runs the loop above and
always ends in the single `Ok(..)` return; the error type (`Utf8Error`)
is never produced. -/
def urldecode (s : List Char) : Except Unit (List Char) := .ok (percentDecode s)

/-- Rust `str::split(sep)`: the chunks between occurrences of `sep`,
empty chunks included (`split('&')` on `""` yields `[""]`). -/
def splitOnChar (sep : Char) : List Char → List (List Char)
  | [] => [[]]
  | c :: rest =>
      let r := splitOnChar sep rest
      if c = sep then [] :: r
      else (c :: r.headD []) :: r.tail

/-- Rust `str::split(pred)`: chunks between characters satisfying `pred`,
empty chunks included. -/
def splitPred (p : Char → Bool) : List Char → List (List Char)
  | [] => [[]]
  | c :: rest =>
      let r := splitPred p rest
      if p c then [] :: r
      else (c :: r.headD []) :: r.tail

/-- `pair.splitn(2, '=')`: key before the first `=`, value after it
(empty when there is no `=`, matching `.unwrap_or("")`). -/
def splitFirstEq : List Char → List Char × List Char
  | [] => ([], [])
  | '=' :: rest => ([], rest)
  | c :: rest =>
      let kv := splitFirstEq rest
      (c :: kv.1, kv.2)

/-- `parse_query_params` (`src/callback.rs`): split on `&`, split each pair
at the first `=`, percent-decode key and value.  The pairs are kept in
order; `HashMap::collect`'s later-entry-wins semantics is captured by
`lookupParam` below. -/
def parse_query_params (query : String) : List (String × String) :=
  (splitOnChar '&' query.data).map fun pair =>
    let kv := splitFirstEq pair
    (String.mk (percentDecode kv.1), String.mk (percentDecode kv.2))

/-- Lookup in the collected parameter map: the last pair with the wanted
key wins, as when an association list is collected into a `HashMap`. -/
def lookupParam (ps : List (String × String)) (k : String) : Option String :=
  (ps.reverse.find? (fun p => p.1 == k)).map (fun p => p.2)

/-- `CallbackResult` (`src/callback.rs`). -/
structure CallbackResult where
  code : String
  state : String
  deriving Repr, DecidableEq

/-- What `CallbackServer::handle_request` does to one connection: the HTTP
response written to the stream, if any — `(status, text)` where `text` is
the error message interpolated into the 400 page and empty for the 200
page — and the value returned to `wait_for_callback` (`Ok(None)` keeps
listening, `Ok(Some _)` ends the wait, `Err` aborts it). -/
structure HandleOutcome where
  response : Option (Nat × String)
  result : Except OAuthError (Option CallbackResult)

/-- Rust `char::is_whitespace`: the Unicode `White_Space` property
(U+0009–U+000D, U+0020, U+0085, U+00A0, U+1680, U+2000–U+200A, U+2028,
U+2029, U+202F, U+205F, U+3000). -/
def isRustWhitespace (c : Char) : Bool :=
  [0x09, 0x0A, 0x0B, 0x0C, 0x0D, 0x20, 0x85, 0xA0, 0x1680,
    0x2028, 0x2029, 0x202F, 0x205F, 0x3000].contains c.toNat
  || (0x2000 ≤ c.toNat && c.toNat ≤ 0x200A)

/-- `str::split_whitespace`: split on Unicode whitespace and drop empty
chunks. -/
def splitWhitespaceModel (s : String) : List String :=
  ((splitPred isRustWhitespace s.data).map String.mk).filter (fun t => ¬ t.isEmpty)

/-- Prefix test on character lists (`str::starts_with`). -/
def startsWithChars : List Char → List Char → Bool
  | _, [] => true
  | [], _ :: _ => false
  | c :: cs, p :: ps => c == p && startsWithChars cs ps

/-- `path.find('?')` and the slice after it. -/
def queryOf : List Char → Option (List Char)
  | [] => none
  | '?' :: rest => some rest
  | _ :: rest => queryOf rest

/-- `CallbackServer::handle_request` (`src/callback.rs`), as a function of
the request line: fewer than two whitespace-separated tokens → 400
"Invalid request"; a path not starting with `/callback` → 400 "Not found";
no `?` in the path → 400 "Missing query parameters"; an `error` parameter →
400 page and an `OAuthErrorResponse` error; a missing `code` or `state` →
no response is written and a `MissingField` error is returned; otherwise →
200 page and the captured `(code, state)`. -/
def handle_request (requestLine : String) : HandleOutcome :=
  let parts := splitWhitespaceModel requestLine
  if parts.length < 2 then ⟨some (400, "Invalid request"), .ok none⟩
  else
    let path := parts.getD 1 ""
    if ¬ startsWithChars path.data "/callback".data then
      ⟨some (400, "Not found"), .ok none⟩
    else
      match queryOf path.data with
      | none => ⟨some (400, "Missing query parameters"), .ok none⟩
      | some query =>
        let params := parse_query_params (String.mk query)
        match lookupParam params "error" with
        | some error =>
            ⟨some (400, "Authorization failed: " ++ error),
             .error (.OAuthErrorResponse error (lookupParam params "error_description"))⟩
        | none =>
          match lookupParam params "code" with
          | none => ⟨none, .error (.MissingField "code")⟩
          | some code =>
            match lookupParam params "state" with
            | none => ⟨none, .error (.MissingField "state")⟩
            | some state => ⟨some (200, ""), .ok (some ⟨code, state⟩)⟩

/-! ## Lock file naming (`RefreshLockManager::lock_path`, `src/lock.rs`) -/

/-- The characters `key.replace([..], "_")` rewrites in `lock_path`. -/
def pathHostile : List Char := ['/', '\\', ':', '*', '?', '"', '<', '>', '|']

/-- The `safe_key` sanitization of `lock_path`. -/
def sanitizeKey (key : String) : String :=
  String.mk (key.data.map (fun c => if c ∈ pathHostile then '_' else c))

/-- `RefreshLockManager::lock_path`: `lock_dir.join(format!(.., safe_key))`,
with `PathBuf::join` modelled as separator concatenation. -/
def lock_path (lockDir key : String) : String :=
  lockDir ++ "/" ++ sanitizeKey key ++ ".lock"

/-- A token with `expires_in = 3600` and the given absolute expiry, as in
the spec's threshold test vectors. -/
def tokenWithLifetime (expAt : Nat) : Token :=
  { access_token := "valid_token"
    refresh_token := some "refresh"
    token_type := "Bearer"
    expires_in := some 3600
    expires_at := some expAt
    scope := none }

/-! # Theorems for the specification's claims -/

/-- C4: `Token.is_expired` uses `expires_at` as the sole basis for expiry —
it is true when `expires_at` is the past instant `now − 1`, false when
`expires_at = now + 3600`, false whenever `expires_at` is absent, and agrees
on any two tokens with the same `expires_at`; and `convert_token_response`
computes `expires_at = now + expires_in` at conversion time when
`expires_in` is present and leaves it absent otherwise. -/
theorem token_expiry_and_conversion (now : Nat) :
    (∀ t : Token, t.expires_at = some (now - 1) → t.is_expired now = true)
  ∧ (∀ t : Token, t.expires_at = some (now + 3600) → t.is_expired now = false)
  ∧ (∀ t : Token, t.expires_at = none → t.is_expired now = false)
  ∧ (∀ t t' : Token, t.expires_at = t'.expires_at →
      t.is_expired now = t'.is_expired now)
  ∧ (∀ (r : TokenResponse) (exp : Nat), r.expires_in = some exp →
      (convert_token_response r now).expires_at = some (now + exp))
  ∧ (∀ r : TokenResponse, r.expires_in = none →
      (convert_token_response r now).expires_at = none) := by
  refine ⟨?_, ?_, ?_, ?_, ?_, ?_⟩
  · intro t h
    simp [Token.is_expired, h, Nat.sub_le]
  · intro t h
    simp [Token.is_expired, h]
  · intro t h
    simp [Token.is_expired, h]
  · intro t t' h
    simp only [Token.is_expired, h]
  · intro r exp h
    simp [convert_token_response, h]
  · intro r h
    simp [convert_token_response, h]

theorem token_expiry_and_conversion_witness :
    ({ access_token := "a", refresh_token := none, token_type := "bearer",
       expires_in := none, expires_at := some 99, scope := none } : Token).is_expired 100
      = true :=
  (token_expiry_and_conversion 100).1 _ rfl

/-- C3: `get_valid_token_with_threshold` clamps the threshold into `[0, 1]`
and enters the refresh path exactly when the stored token is expired or
`fraction_elapsed = (expires_in − (expires_at − now)) / expires_in` is at
least the clamped threshold; a token lacking both expiry fields is returned
unrefreshed; the 10%-elapsed token (`expires_in = 3600`,
`expires_at = now + 3240`) is returned unrefreshed at thresholds 0.8, 0.5
and at 1.5 (clamped to 1), while the 90%-elapsed token
(`expires_at = now + 360`) enters the refresh path at threshold 0.8. -/
theorem get_valid_token_with_threshold_spec (now : Nat) (t : Token) (th : ℚ) :
    (∀ expAt dur : Nat, t.expires_at = some expAt → t.expires_in = some dur →
        dur ≠ 0 →
        (get_valid_token_with_threshold (some t) th now = .refreshPath ↔
          t.is_expired now = true ∨
            ((dur : ℚ) - ((expAt - now : Nat) : ℚ)) / (dur : ℚ) ≥ clamp01 th))
  ∧ (t.expires_at = none → t.expires_in = none →
        get_valid_token_with_threshold (some t) th now = .returned t)
  ∧ (get_valid_token_with_threshold (some (tokenWithLifetime (now + 3240))) (8 / 10) now
        = .returned (tokenWithLifetime (now + 3240)))
  ∧ (get_valid_token_with_threshold (some (tokenWithLifetime (now + 3240))) (5 / 10) now
        = .returned (tokenWithLifetime (now + 3240)))
  ∧ (clamp01 (15 / 10) = 1
      ∧ get_valid_token_with_threshold (some (tokenWithLifetime (now + 3240))) (15 / 10) now
          = .returned (tokenWithLifetime (now + 3240)))
  ∧ (get_valid_token_with_threshold (some (tokenWithLifetime (now + 360))) (8 / 10) now
        = .refreshPath) := by
  have hmain : ∀ (d : Nat) (q : ℚ), 0 < d →
      get_valid_token_with_threshold (some (tokenWithLifetime (now + d))) q now
        = if ((3600 : ℚ) - (d : ℚ)) / (3600 : ℚ) ≥ clamp01 q then .refreshPath
          else .returned (tokenWithLifetime (now + d)) := by
    intro d q hd
    have e1 : (tokenWithLifetime (now + d)).is_expired now = false := by
      simp only [tokenWithLifetime, Token.is_expired, decide_eq_false_iff_not]
      omega
    have e2 : now + d - now = d := by omega
    simp only [get_valid_token_with_threshold, should_refresh, e1,
      Bool.false_eq_true, if_false]
    simp only [tokenWithLifetime, e2, decide_eq_true_eq, Nat.cast_ofNat]
  have c08 : clamp01 (8 / 10) = 4 / 5 := by
    rw [clamp01]
    rw [max_eq_left (by norm_num), min_eq_left (by norm_num)]
    norm_num
  have c05 : clamp01 (5 / 10) = 1 / 2 := by
    rw [clamp01]
    rw [max_eq_left (by norm_num), min_eq_left (by norm_num)]
    norm_num
  have c15 : clamp01 (15 / 10) = 1 := by
    rw [clamp01]
    rw [max_eq_left (by norm_num), min_eq_right (by norm_num)]
  refine ⟨?_, ?_, ?_, ?_, ⟨c15, ?_⟩, ?_⟩
  · intro expAt dur h1 h2 hd
    by_cases hexp : t.is_expired now
    · simp [get_valid_token_with_threshold, should_refresh, hexp]
    · simp only [get_valid_token_with_threshold, should_refresh, hexp,
        Bool.false_eq_true, if_false, h1, h2]
      by_cases hq : ((dur : ℚ) - ((expAt - now : Nat) : ℚ)) / (dur : ℚ) ≥ clamp01 th
      · simp [hq, hexp]
      · simp [hq, hexp]
  · intro h1 h2
    simp [get_valid_token_with_threshold, should_refresh, Token.is_expired, h1, h2]
  · rw [hmain 3240 (8 / 10) (by omega), c08, if_neg (by norm_num)]
  · rw [hmain 3240 (5 / 10) (by omega), c05, if_neg (by norm_num)]
  · rw [hmain 3240 (15 / 10) (by omega), c15, if_neg (by norm_num)]
  · rw [hmain 360 (8 / 10) (by omega), c08, if_pos (by norm_num)]

theorem get_valid_token_with_threshold_spec_witness :
    get_valid_token_with_threshold (some (tokenWithLifetime 4000)) (8 / 10) 1000
        = .refreshPath ↔
      (tokenWithLifetime 4000).is_expired 1000 = true ∨
        ((3600 : ℚ) - ((4000 - 1000 : Nat) : ℚ)) / (3600 : ℚ) ≥ clamp01 (8 / 10) :=
  (get_valid_token_with_threshold_spec 1000 (tokenWithLifetime 4000) (8 / 10)).1
    4000 3600 rfl rfl (by norm_num)

/-- C9: the lock-file key sanitization is not injective — `lock_path`
rewrites each of `/ \ : * ? " < > |` to `_` before appending `.lock`, so the
distinct keys `"a:b"` and `"a_b"` map to the same lock-file path under every
lock directory, and any two keys with equal sanitizations share one lock
file. -/
theorem lock_path_not_injective :
    (∀ dir : String, lock_path dir "a:b" = lock_path dir "a_b")
  ∧ ("a:b" : String) ≠ "a_b"
  ∧ (∀ dir k1 k2 : String, sanitizeKey k1 = sanitizeKey k2 →
      lock_path dir k1 = lock_path dir k2)
  ∧ (∀ key : String, (sanitizeKey key).data
      = key.data.map (fun c => if c ∈ pathHostile then '_' else c)) := by
  have hs : sanitizeKey "a:b" = sanitizeKey "a_b" := by decide
  refine ⟨?_, by decide, ?_, ?_⟩
  · intro dir
    rw [lock_path, lock_path, hs]
  · intro dir k1 k2 h
    rw [lock_path, lock_path, h]
  · intro key
    rfl

theorem lock_path_not_injective_witness :
    lock_path "locks" "a:b" = lock_path "locks" "a_b" :=
  lock_path_not_injective.2.2.1 "locks" "a:b" "a_b" (by decide)

/-- C10 counterexample: the decoder does not leave the truncated sequence
`%A` literally in the output — the lone trailing hex digit is accepted by
`u8::from_str_radix` and becomes the character U+000A. -/
theorem percent_decode_truncated_counterexample :
    percentDecode ['%', 'A'] = [Char.ofNat 10]
      ∧ percentDecode ['%', 'A'] ≠ ['%', 'A'] := by
  constructor
  · rfl
  · decide

/-- C10 (amended): the query-string percent-decoder is total — `decode`
returns `Ok` on every input.  A `%` consumes up to two characters and hands
them to `u8::from_str_radix(_, 16)`: when the parse succeeds (two hex
digits, a `+`-signed hex digit such as `+5`, or a lone trailing hex digit)
the parsed byte's character is emitted; when it fails (as for any
`-`-signed input, e.g. `%-0`) the `%` and the consumed characters appear
literally; `+` maps to a space and all other characters are copied.
Consequently `parse_query_params` yields exactly one key/value pair per
`&`-separated chunk of any query string, e.g. decoding
`code=abc%20123&state=xyz%2F789` to `code="abc 123"`, `state="xyz/789"`. -/
theorem urldecode_total_spec :
    (∀ s, urldecode s = .ok (percentDecode s))
  ∧ (∀ a b rest v, fromStrRadix16U8 [a, b] = some v →
      percentDecode ('%' :: a :: b :: rest) = Char.ofNat v :: percentDecode rest)
  ∧ (∀ a b rest, fromStrRadix16U8 [a, b] = none →
      percentDecode ('%' :: a :: b :: rest) = '%' :: a :: b :: percentDecode rest)
  ∧ (∀ a v, fromStrRadix16U8 [a] = some v → percentDecode ['%', a] = [Char.ofNat v])
  ∧ (∀ a, fromStrRadix16U8 [a] = none → percentDecode ['%', a] = ['%', a])
  ∧ percentDecode ['%'] = ['%']
  ∧ (∀ rest, percentDecode ('+' :: rest) = ' ' :: percentDecode rest)
  ∧ (∀ c rest, c ≠ '%' → c ≠ '+' →
      percentDecode (c :: rest) = c :: percentDecode rest)
  ∧ percentDecode ['%', '-', '0'] = ['%', '-', '0']
  ∧ (∀ q : String, (parse_query_params q).length = (splitOnChar '&' q.data).length)
  ∧ (lookupParam (parse_query_params "code=abc%20123&state=xyz%2F789") "code"
        = some "abc 123"
      ∧ lookupParam (parse_query_params "code=abc%20123&state=xyz%2F789") "state"
        = some "xyz/789") := by
  refine ⟨fun s => rfl, ?_, ?_, ?_, ?_, rfl, fun rest => rfl, ?_, by decide, ?_,
    by decide, by decide⟩
  · intro a b rest v h
    simp [percentDecode, h]
  · intro a b rest h
    simp [percentDecode, h]
  · intro a v h
    simp [percentDecode, h]
  · intro a h
    simp [percentDecode, h]
  · intro c rest h1 h2
    conv_lhs => rw [percentDecode.eq_def]
    split
    · rename_i heq
      exact absurd heq (by simp)
    · rename_i heq
      simp only [List.cons.injEq] at heq
      exact absurd heq.1 h1
    · rename_i heq
      simp only [List.cons.injEq] at heq
      exact absurd heq.1 h1
    · rename_i heq
      simp only [List.cons.injEq] at heq
      exact absurd heq.1 h1
    · rename_i heq
      simp only [List.cons.injEq] at heq
      exact absurd heq.1 h2
    · rename_i heq
      simp only [List.cons.injEq] at heq
      rw [heq.1, heq.2]
  · intro q
    simp [parse_query_params]

theorem urldecode_total_spec_witness :
    percentDecode ['%', '2', '0', 'x'] = Char.ofNat 32 :: percentDecode ['x'] :=
  urldecode_total_spec.2.1 '2' '0' ['x'] 32 (by decide)

/-- C8 counterexample: a request whose path is not `/callback` is answered
with the status-400 error page carrying "Not found", not with a 404
response. -/
theorem handle_request_no_404_counterexample :
    (handle_request "GET /other HTTP/1.1").response = some (400, "Not found") := by
  decide

/-- C8 (amended): a well-formed `GET /callback` request carrying `code` and
`state` is answered 200 with the confirmation page and yields the captured
pair; every response `handle_request` ever writes has status 200 or 400
(there is no 404); a request for any other path is answered 400 with the
"Not found" error page; a `/callback` request without a query string is
answered 400 ("Missing query parameters"); a `/callback` request carrying
an `error` parameter is answered 400 and fails with the server-reported
error and description; and a `/callback` request whose query carries
neither `error` nor `code` receives no HTTP response at all — it fails the
wait with `MissingField "code"`. -/
theorem handle_request_status_spec :
    ((handle_request "GET /callback?code=abc%20123&state=xyz HTTP/1.1").response
        = some (200, "")
      ∧ (handle_request "GET /callback?code=abc%20123&state=xyz HTTP/1.1").result
        = .ok (some ⟨"abc 123", "xyz"⟩))
  ∧ (∀ req : String, (handle_request req).response = none
      ∨ (∃ b, (handle_request req).response = some (200, b))
      ∨ (∃ b, (handle_request req).response = some (400, b)))
  ∧ (∀ req : String, 2 ≤ (splitWhitespaceModel req).length →
      startsWithChars ((splitWhitespaceModel req).getD 1 "").data "/callback".data
        = false →
      (handle_request req).response = some (400, "Not found"))
  ∧ (∀ req : String, 2 ≤ (splitWhitespaceModel req).length →
      startsWithChars ((splitWhitespaceModel req).getD 1 "").data "/callback".data
        = true →
      queryOf ((splitWhitespaceModel req).getD 1 "").data = none →
      (handle_request req).response = some (400, "Missing query parameters"))
  ∧ (∀ (req : String) (query : List Char) (e : String),
      2 ≤ (splitWhitespaceModel req).length →
      startsWithChars ((splitWhitespaceModel req).getD 1 "").data "/callback".data
        = true →
      queryOf ((splitWhitespaceModel req).getD 1 "").data = some query →
      lookupParam (parse_query_params (String.mk query)) "error" = some e →
      (handle_request req).response = some (400, "Authorization failed: " ++ e)
        ∧ (handle_request req).result = .error (.OAuthErrorResponse e
            (lookupParam (parse_query_params (String.mk query)) "error_description")))
  ∧ (∀ (req : String) (query : List Char),
      2 ≤ (splitWhitespaceModel req).length →
      startsWithChars ((splitWhitespaceModel req).getD 1 "").data "/callback".data
        = true →
      queryOf ((splitWhitespaceModel req).getD 1 "").data = some query →
      lookupParam (parse_query_params (String.mk query)) "error" = none →
      lookupParam (parse_query_params (String.mk query)) "code" = none →
      (handle_request req).response = none
        ∧ (handle_request req).result = .error (.MissingField "code")) := by
  refine ⟨⟨by decide, by rfl⟩, ?_, ?_, ?_, ?_, ?_⟩
  · intro req
    by_cases h1 : (splitWhitespaceModel req).length < 2
    · right; right
      exact ⟨"Invalid request", by simp [handle_request, h1]⟩
    · by_cases h2 : startsWithChars ((splitWhitespaceModel req)[1]?.getD "").data
          "/callback".data
      · rcases hq : queryOf ((splitWhitespaceModel req)[1]?.getD "").data with _ | query
        · right; right
          exact ⟨"Missing query parameters", by simp [handle_request, h1, h2, hq]⟩
        · rcases herr : lookupParam (parse_query_params (String.mk query)) "error"
            with _ | e
          · rcases hcode : lookupParam (parse_query_params (String.mk query)) "code"
              with _ | code
            · left
              simp [handle_request, h1, h2, hq, herr, hcode]
            · rcases hst : lookupParam (parse_query_params (String.mk query)) "state"
                with _ | st
              · left
                simp [handle_request, h1, h2, hq, herr, hcode, hst]
              · right; left
                exact ⟨"", by simp [handle_request, h1, h2, hq, herr, hcode, hst]⟩
          · right; right
            exact ⟨"Authorization failed: " ++ e,
              by simp [handle_request, h1, h2, hq, herr]⟩
      · right; right
        exact ⟨"Not found", by simp [handle_request, h1, h2]⟩
  · intro req h1 h2
    have h1' : ¬ (splitWhitespaceModel req).length < 2 := by omega
    rw [List.getD_eq_getElem?_getD] at h2
    simp [handle_request, h1', h2]
  · intro req h1 h2 hq
    have h1' : ¬ (splitWhitespaceModel req).length < 2 := by omega
    rw [List.getD_eq_getElem?_getD] at h2 hq
    simp [handle_request, h1', h2, hq]
  · intro req query e h1 h2 hq herr
    have h1' : ¬ (splitWhitespaceModel req).length < 2 := by omega
    rw [List.getD_eq_getElem?_getD] at h2 hq
    constructor
    · simp [handle_request, h1', h2, hq, herr]
    · simp [handle_request, h1', h2, hq, herr]
  · intro req query h1 h2 hq herr hcode
    have h1' : ¬ (splitWhitespaceModel req).length < 2 := by omega
    rw [List.getD_eq_getElem?_getD] at h2 hq
    constructor
    · simp [handle_request, h1', h2, hq, herr, hcode]
    · simp [handle_request, h1', h2, hq, herr, hcode]

theorem handle_request_status_spec_witness :
    (handle_request "GET /elsewhere HTTP/1.1").response = some (400, "Not found") :=
  handle_request_status_spec.2.2.1 "GET /elsewhere HTTP/1.1" (by decide) (by decide)

/-- C6: `exchange_code` re-fetches the session stored under `state` and
fails with `InvalidState` when none is present; on a successful
token-endpoint exchange it deletes the session under `state` (leaving every
other entry untouched) and returns the converted token; on a failed
exchange it surfaces the server's error and deletes nothing. -/
theorem exchange_code_spec (sessions : String → Option Session)
    (http : HttpResult) (st : String) (now : Nat) :
    (sessions st = none →
      exchange_code sessions http st now = (.error .InvalidState, sessions))
  ∧ (∀ sess r, sessions st = some sess → http = .success r →
      (exchange_code sessions http st now).1 = .ok (convert_token_response r now)
        ∧ (exchange_code sessions http st now).2 st = none
        ∧ ∀ s2, s2 ≠ st → (exchange_code sessions http st now).2 s2 = sessions s2)
  ∧ (∀ sess err desc, sessions st = some sess → http = .errorResponse err desc →
      exchange_code sessions http st now
        = (.error (.OAuthErrorResponse err desc), sessions))
  ∧ (∀ sess e, sessions st = some sess → http = .transportError e →
      exchange_code sessions http st now = (.error (.HttpError e), sessions)) := by
  refine ⟨?_, ?_, ?_, ?_⟩
  · intro h
    simp [exchange_code, h]
  · intro sess r hs hh
    refine ⟨?_, ?_, ?_⟩
    · simp [exchange_code, hs, hh]
    · simp [exchange_code, hs, hh]
    · intro s2 hne
      simp [exchange_code, hs, hh, Function.update, hne]
  · intro sess err desc hs hh
    simp [exchange_code, hs, hh]
  · intro sess e hs hh
    simp [exchange_code, hs, hh]

theorem exchange_code_spec_witness :
    exchange_code (fun _ => none) (.errorResponse "invalid_grant" none) "s1" 7
      = (.error .InvalidState, fun _ => none) :=
  (exchange_code_spec (fun _ => none) (.errorResponse "invalid_grant" none) "s1" 7).1
    rfl

/-- C1: the lock-protected body of `refresh_with_file_lock` re-reads the
token after acquiring the key's lock; when the re-read token is not expired
it is returned as-is with zero network refresh calls and the store
untouched; only when it is still expired is exactly one refresh performed
and its result persisted and returned.  Consequently, for two processes
serialized by the lock, the loser — running after the winner's body — finds
the winner's non-expired token on re-read and returns it with zero network
calls. -/
theorem refresh_with_file_lock_check_then_refresh :
    (∀ (tokens : String → Option Token) (http : String → HttpResult)
        (key : String) (now : Nat) (t : Token),
      tokens key = some t → t.is_expired now = false →
      refresh_with_file_lock tokens http key now = ⟨.ok t, tokens, 0⟩)
  ∧ (∀ (tokens : String → Option Token) (http : String → HttpResult)
        (key : String) (now : Nat) (t : Token) (rt : String) (r : TokenResponse),
      tokens key = some t → t.is_expired now = true →
      t.refresh_token = some rt → http rt = .success r →
      refresh_with_file_lock tokens http key now
        = ⟨.ok (convert_token_response r now),
           Function.update tokens key (some (convert_token_response r now)), 1⟩)
  ∧ (∀ (tokens : String → Option Token) (http : String → HttpResult)
        (key : String) (now : Nat) (t : Token),
      tokens key = some t → t.is_expired now = true → t.refresh_token = none →
      refresh_with_file_lock tokens http key now = ⟨.error .NoRefreshToken, tokens, 0⟩)
  ∧ (∀ (tokens : String → Option Token) (http : String → HttpResult)
        (key : String) (now : Nat) (winner : Token),
      (refresh_with_file_lock tokens http key now).result = .ok winner →
      winner.is_expired now = false →
      refresh_with_file_lock (refresh_with_file_lock tokens http key now).tokens
          http key now
        = ⟨.ok winner, (refresh_with_file_lock tokens http key now).tokens, 0⟩) := by
  have hfresh : ∀ (tokens : String → Option Token) (http : String → HttpResult)
      (key : String) (now : Nat) (t : Token),
      tokens key = some t → t.is_expired now = false →
      refresh_with_file_lock tokens http key now = ⟨.ok t, tokens, 0⟩ := by
    intro tokens http key now t hs hexp
    simp [refresh_with_file_lock, hs, hexp]
  have hok : ∀ (tokens : String → Option Token) (http : String → HttpResult)
      (key : String) (now : Nat) (winner : Token),
      (refresh_with_file_lock tokens http key now).result = .ok winner →
      (refresh_with_file_lock tokens http key now).tokens key = some winner := by
    intro tokens http key now winner hres
    rcases hs : tokens key with _ | t
    · rw [refresh_with_file_lock] at hres
      simp [hs] at hres
    · rcases hexp : t.is_expired now with _ | _
      · rw [hfresh tokens http key now t hs hexp] at hres ⊢
        simp at hres
        exact hres ▸ hs
      · rcases hrt : t.refresh_token with _ | rt
        · rw [refresh_with_file_lock] at hres
          simp [hs, hexp, hrt] at hres
        · rcases hhttp : http rt with e | ⟨err, desc⟩ | r
          · rw [refresh_with_file_lock] at hres
            simp [hs, hexp, hrt, hhttp, token_endpoint_result] at hres
          · rw [refresh_with_file_lock] at hres
            simp [hs, hexp, hrt, hhttp, token_endpoint_result] at hres
          · rw [refresh_with_file_lock] at hres ⊢
            simp only [hs, hexp, hrt, hhttp, token_endpoint_result] at hres ⊢
            simp at hres
            simp [Function.update, hres]
  refine ⟨hfresh, ?_, ?_, ?_⟩
  · intro tokens http key now t rt r hs hexp hrt hhttp
    simp [refresh_with_file_lock, hs, hexp, hrt, hhttp, token_endpoint_result]
  · intro tokens http key now t hs hexp hrt
    simp [refresh_with_file_lock, hs, hexp, hrt]
  · intro tokens http key now winner hres hexp
    exact hfresh _ http key now winner (hok tokens http key now winner hres) hexp

theorem refresh_with_file_lock_check_then_refresh_witness :
    refresh_with_file_lock (fun _ => some (tokenWithLifetime 500))
        (fun _ => .transportError "down") "k" 100
      = ⟨.ok (tokenWithLifetime 500), fun _ => some (tokenWithLifetime 500), 0⟩ :=
  refresh_with_file_lock_check_then_refresh.1 (fun _ => some (tokenWithLifetime 500))
    (fun _ => .transportError "down") "k" 100 (tokenWithLifetime 500) rfl (by decide)

/-- C2: a caller of `refresh_in_process` that finds the in-progress flag
clear performs the refresh through `do_refresh` (having failed with
`NoRefreshToken` already when the stored token has no refresh token, a path
that never sets the flag), and the flag for the key is clear again when the
call returns, whether the refresh succeeded or failed; so after every such
return no waiter can be stuck polling the flag. -/
theorem refresh_in_process_clears_flag (s : InProcState)
    (http : String → HttpResult) (key : String) (now : Nat)
    (hclear : s.inProgress key = false) :
    ∃ o, refresh_in_process s http key now = some o
      ∧ o.state.inProgress key = false
      ∧ (s.tokens key = none →
          o.result = .error (.InvalidResponse "Token not found"))
      ∧ (∀ t, s.tokens key = some t → t.refresh_token = none →
          o.result = .error .NoRefreshToken)
      ∧ (∀ t rt, s.tokens key = some t → t.refresh_token = some rt →
          o.result = (do_refresh s.tokens http key rt now).1
            ∧ o.state.tokens = (do_refresh s.tokens http key rt now).2) := by
  rcases hs : s.tokens key with _ | t
  · refine ⟨⟨.error (.InvalidResponse "Token not found"), s⟩, ?_, hclear, ?_, ?_, ?_⟩
    · simp [refresh_in_process, hs]
    · intro; rfl
    · intro t ht; exact absurd ht (by simp)
    · intro t rt ht; exact absurd ht (by simp)
  · rcases hrt : t.refresh_token with _ | rt
    · refine ⟨⟨.error .NoRefreshToken, s⟩, ?_, hclear, ?_, ?_, ?_⟩
      · simp [refresh_in_process, hs, hrt]
      · intro hn; exact absurd hn (by simp)
      · intro t' ht'
        intro
        rfl
      · intro t' rt' ht' hrt'
        cases ht'
        exact absurd hrt' (by simp [hrt])
    · refine ⟨⟨(do_refresh s.tokens http key rt now).1,
        ⟨Function.update (Function.update s.inProgress key true) key false,
         (do_refresh s.tokens http key rt now).2⟩⟩, ?_, ?_, ?_, ?_, ?_⟩
      · simp [refresh_in_process, hs, hrt, hclear]
      · simp [Function.update]
      · intro hn; exact absurd hn (by simp)
      · intro t' ht' hrt'
        cases ht'
        exact absurd hrt' (by simp [hrt])
      · intro t' rt' ht' hrt'
        cases ht'
        rw [hrt] at hrt'
        cases hrt'
        exact ⟨rfl, rfl⟩

theorem refresh_in_process_clears_flag_witness :
    ∃ o, refresh_in_process
        ⟨fun _ => false, fun _ => some (tokenWithLifetime 50)⟩
        (fun _ => .errorResponse "invalid_grant" none) "k" 100 = some o
      ∧ o.state.inProgress "k" = false
      ∧ ((fun (_ : String) => some (tokenWithLifetime 50)) "k" = none →
          o.result = .error (.InvalidResponse "Token not found"))
      ∧ (∀ t, (fun (_ : String) => some (tokenWithLifetime 50)) "k" = some t →
          t.refresh_token = none → o.result = .error .NoRefreshToken)
      ∧ (∀ t rt, (fun (_ : String) => some (tokenWithLifetime 50)) "k" = some t →
          t.refresh_token = some rt →
          o.result = (do_refresh (fun _ => some (tokenWithLifetime 50))
              (fun _ => .errorResponse "invalid_grant" none) "k" rt 100).1
            ∧ o.state.tokens = (do_refresh (fun _ => some (tokenWithLifetime 50))
              (fun _ => .errorResponse "invalid_grant" none) "k" rt 100).2) :=
  refresh_in_process_clears_flag
    ⟨fun _ => false, fun _ => some (tokenWithLifetime 50)⟩
    (fun _ => .errorResponse "invalid_grant" none) "k" 100 rfl

/-- C5: in the device poll loop the deadline is re-checked before every
sleep — when `now` is already past the deadline the loop ends with
`DeviceCodeExpired` without sleeping or polling, and every recorded sleep
begins at or before the deadline; `authorization_pending` leaves the poll
interval unchanged; three consecutive `slow_down` responses inflate the
successive sleeps to `i`, `i+5`, `i+10` and leave the loop at interval
`i+15` (5 more per `slow_down`, no upper bound); and a run of only
`authorization_pending`/`slow_down` responses long enough to pass the
deadline `start + expires_in` terminates with `DeviceCodeExpired`. -/
theorem poll_for_device_token_spec :
    (∀ (expiration now interval : Nat) (rs : List PollResponse),
      now > expiration →
      pollLoop expiration rs now interval = (.failure .DeviceCodeExpired, []))
  ∧ (∀ (expiration : Nat) (rs : List PollResponse) (now interval k : Nat),
      k < (pollLoop expiration rs now interval).2.length →
      now + ((pollLoop expiration rs now interval).2.take k).sum ≤ expiration)
  ∧ (∀ (expiration now interval : Nat) (rs : List PollResponse)
        (d : Option String), ¬ now > expiration →
      pollLoop expiration (.errorCode "authorization_pending" d :: rs) now interval
        = ((pollLoop expiration rs (now + interval) interval).1,
           interval :: (pollLoop expiration rs (now + interval) interval).2))
  ∧ (∀ (expiration now interval : Nat) (rs : List PollResponse)
        (d1 d2 d3 : Option String),
      now + 2 * interval + 5 ≤ expiration →
      pollLoop expiration
          (.errorCode "slow_down" d1 :: .errorCode "slow_down" d2 ::
            .errorCode "slow_down" d3 :: rs) now interval
        = ((pollLoop expiration rs (now + 3 * interval + 15) (interval + 15)).1,
           interval :: (interval + 5) :: (interval + 10) ::
             (pollLoop expiration rs (now + 3 * interval + 15) (interval + 15)).2))
  ∧ (∀ (auth : DeviceAuthorizationResponse) (start : Nat) (rs : List PollResponse),
      0 < auth.interval →
      (∀ r ∈ rs, ∃ d : Option String,
        r = .errorCode "authorization_pending" d ∨ r = .errorCode "slow_down" d) →
      start + auth.expires_in < start + rs.length * auth.interval →
      (poll_for_device_token auth start rs).1 = .failure .DeviceCodeExpired) := by
  have hdead : ∀ (e now i : Nat) (rs : List PollResponse), now > e →
      pollLoop e rs now i = (.failure .DeviceCodeExpired, []) := by
    intro e now i rs h
    rw [pollLoop.eq_def]
    simp [h]
  have hpend : ∀ (e now i : Nat) (rs : List PollResponse) (d : Option String),
      ¬ now > e →
      pollLoop e (.errorCode "authorization_pending" d :: rs) now i
        = ((pollLoop e rs (now + i) i).1, i :: (pollLoop e rs (now + i) i).2) := by
    intro e now i rs d h
    rw [pollLoop.eq_def]
    simp [h]
  have hslow : ∀ (e now i : Nat) (rs : List PollResponse) (d : Option String),
      ¬ now > e →
      pollLoop e (.errorCode "slow_down" d :: rs) now i
        = ((pollLoop e rs (now + i) (i + 5)).1,
           i :: (pollLoop e rs (now + i) (i + 5)).2) := by
    intro e now i rs d h
    rw [pollLoop.eq_def]
    simp [h]
  have hterm : ∀ (e : Nat) (rs : List PollResponse),
      (∀ r ∈ rs, ∃ d : Option String,
        r = .errorCode "authorization_pending" d ∨ r = .errorCode "slow_down" d) →
      ∀ now i : Nat, 0 < i → e < now + rs.length * i →
      (pollLoop e rs now i).1 = .failure .DeviceCodeExpired := by
    intro e rs
    induction rs with
    | nil =>
      intro _ now i _ hlen
      rw [hdead e now i [] (by simpa using hlen)]
    | cons r rest ih =>
      intro hall now i hi hlen
      by_cases h : now > e
      · rw [hdead e now i _ h]
      · obtain ⟨d, hd⟩ := hall r (by simp)
        rw [List.length_cons, Nat.succ_mul] at hlen
        rcases hd with hd | hd <;> subst hd
        · rw [hpend e now i rest d h]
          exact ih (fun x hx => hall x (by simp [hx])) (now + i) i hi (by omega)
        · rw [hslow e now i rest d h]
          refine ih (fun x hx => hall x (by simp [hx])) (now + i) (i + 5)
            (by omega) ?_
          have hmul : rest.length * i ≤ rest.length * (i + 5) :=
            Nat.mul_le_mul_left _ (by omega)
          omega
  have hsleeps : ∀ (e : Nat) (rs : List PollResponse) (now i k : Nat),
      k < (pollLoop e rs now i).2.length →
      now + ((pollLoop e rs now i).2.take k).sum ≤ e := by
    intro e rs
    induction rs with
    | nil =>
      intro now i k hk
      by_cases h : now > e
      · rw [hdead e now i [] h] at hk
        simp at hk
      · rw [pollLoop.eq_def] at hk ⊢
        simp [h] at hk ⊢
        subst hk
        simpa using Nat.le_of_not_lt h
    | cons r rest ih =>
      intro now i k hk
      by_cases h : now > e
      · rw [hdead e now i _ h] at hk
        simp at hk
      · have hterminal : ∀ res : PollResult,
            (pollLoop e (r :: rest) now i = (res, [i])) →
            now + ((pollLoop e (r :: rest) now i).2.take k).sum ≤ e := by
          intro res hres
          rw [hres] at hk ⊢
          simp at hk
          subst hk
          simpa using Nat.le_of_not_lt h
        cases r with
        | success tr =>
          refine hterminal (.token (convert_token_response tr (now + i))) ?_
          rw [pollLoop.eq_def]
          simp [h]
        | transportError m =>
          refine hterminal (.failure (.HttpError m)) ?_
          rw [pollLoop.eq_def]
          simp [h]
        | errorCode err d =>
          by_cases he1 : err = "authorization_pending"
          · subst he1
            rw [hpend e now i rest d h] at hk ⊢
            simp only [List.length_cons] at hk
            match k with
            | 0 => simpa using Nat.le_of_not_lt h
            | k' + 1 =>
              rw [List.take_succ_cons, List.sum_cons]
              have := ih (now + i) i k' (by omega)
              omega
          · by_cases he2 : err = "slow_down"
            · subst he2
              rw [hslow e now i rest d h] at hk ⊢
              simp only [List.length_cons] at hk
              match k with
              | 0 => simpa using Nat.le_of_not_lt h
              | k' + 1 =>
                rw [List.take_succ_cons, List.sum_cons]
                have := ih (now + i) (i + 5) k' (by omega)
                omega
            · by_cases he3 : err = "access_denied"
              · refine hterminal (.failure .AuthorizationDenied) ?_
                rw [pollLoop.eq_def]
                simp [h, he1, he2, he3]
              · by_cases he4 : err = "expired_token"
                · refine hterminal (.failure .DeviceCodeExpired) ?_
                  rw [pollLoop.eq_def]
                  simp [h, he1, he2, he3, he4]
                · refine hterminal (.failure (.OAuthErrorResponse err d)) ?_
                  rw [pollLoop.eq_def]
                  simp [h, he1, he2, he3, he4]
  refine ⟨hdead, hsleeps, hpend, ?_, ?_⟩
  · intro e now i rs d1 d2 d3 hde
    rw [hslow e now i _ d1 (by omega)]
    rw [hslow e (now + i) (i + 5) _ d2 (by omega)]
    rw [hslow e (now + i + (i + 5)) (i + 5 + 5) _ d3 (by omega)]
    have e1 : now + i + (i + 5) + (i + 5 + 5) = now + 3 * i + 15 := by ring
    have e2 : i + 5 + 5 + 5 = i + 15 := by ring
    rw [e1, e2]
  · intro auth start rs hi hall hlen
    exact hterm (start + auth.expires_in) rs hall start auth.interval hi (by omega)

theorem poll_for_device_token_spec_witness :
    pollLoop 10 [] 11 5 = (.failure .DeviceCodeExpired, []) :=
  poll_for_device_token_spec.1 10 11 5 [] (by omega)

/-- Length of an unpadded base64 encoding: 4 characters per full 3-byte
group, 2 or 3 for a trailing group of 1 or 2 bytes. -/
theorem b64urlEncode_length : ∀ l : List Nat,
    (b64urlEncode l).length = (4 * l.length + 2) / 3
  | [] => by simp [b64urlEncode]
  | [a] => by simp [b64urlEncode]
  | [a, b] => by simp [b64urlEncode]
  | a :: b :: c :: rest => by
      simp [b64urlEncode, b64urlEncode_length rest]
      omega

/-- The base64 alphabet has no repeated characters. -/
theorem b64Index_b64urlChar : ∀ n : Fin 64, b64Index (b64urlChar n) = n := by decide

theorem b64Index_b64urlChar_lt (n : Nat) (h : n < 64) : b64Index (b64urlChar n) = n := by
  simpa using b64Index_b64urlChar ⟨n, h⟩

/-- `b64urlDecode` un-does `b64urlEncode` on byte lists. -/
theorem b64url_roundtrip : ∀ l : List Nat, (∀ x ∈ l, x < 256) →
    b64urlDecode (b64urlEncode l) = l
  | [], _ => rfl
  | [a], h => by
      have ha : a < 256 := h a (by simp)
      simp only [b64urlEncode, b64urlDecode]
      rw [b64Index_b64urlChar_lt _ (by omega), b64Index_b64urlChar_lt _ (by omega)]
      simp only [List.cons.injEq, and_true]
      omega
  | [a, b], h => by
      have ha : a < 256 := h a (by simp)
      have hb : b < 256 := h b (by simp)
      simp only [b64urlEncode, b64urlDecode]
      rw [b64Index_b64urlChar_lt _ (by omega), b64Index_b64urlChar_lt _ (by omega),
        b64Index_b64urlChar_lt _ (by omega)]
      simp only [List.cons.injEq, and_true]
      constructor <;> omega
  | a :: b :: c :: rest, h => by
      have ha : a < 256 := h a (by simp)
      have hb : b < 256 := h b (by simp)
      have hc : c < 256 := h c (by simp)
      have hr : ∀ x ∈ rest, x < 256 := fun x hx => h x (by simp [hx])
      simp only [b64urlEncode, b64urlDecode]
      rw [b64Index_b64urlChar_lt _ (by omega), b64Index_b64urlChar_lt _ (by omega),
        b64Index_b64urlChar_lt _ (by omega), b64Index_b64urlChar_lt _ (by omega),
        b64url_roundtrip rest hr]
      simp only [List.cons.injEq, and_true]
      refine ⟨?_, ?_, ?_⟩ <;> omega

/-- `b64urlEncode` is injective on byte lists: distinct inputs have
distinct encodings. -/
theorem b64urlEncode_injOn (l1 l2 : List Nat) (h1 : ∀ x ∈ l1, x < 256)
    (h2 : ∀ x ∈ l2, x < 256) (he : b64urlEncode l1 = b64urlEncode l2) :
    l1 = l2 := by
  rw [← b64url_roundtrip l1 h1, ← b64url_roundtrip l2 h2, he]

theorem sha256Round_length (s : List Nat) (wk : Nat × Nat) :
    (sha256Round s wk).length = 8 := rfl

theorem foldl_sha256Round_length (l : List (Nat × Nat)) (s : List Nat)
    (h : s.length = 8) : (l.foldl sha256Round s).length = 8 := by
  induction l generalizing s with
  | nil => simpa using h
  | cons x xs ih => exact ih _ (sha256Round_length _ _)

theorem sha256Compress_length (h : List Nat) (block : List Nat)
    (hh : h.length = 8) : (sha256Compress h block).length = 8 := by
  rw [sha256Compress]
  simp [List.length_zip, foldl_sha256Round_length _ _ hh, hh]

theorem foldl_sha256Compress_length (blocks : List (List Nat)) (h : List Nat)
    (hh : h.length = 8) : (blocks.foldl sha256Compress h).length = 8 := by
  induction blocks generalizing h with
  | nil => simpa using hh
  | cons b bs ih => exact ih _ (sha256Compress_length _ _ hh)

theorem wordsToBytes_length : ∀ w : List Nat, (wordsToBytes w).length = 4 * w.length
  | [] => rfl
  | w :: rest => by
      simp [wordsToBytes, wordsToBytes_length rest]
      ring

/-- A SHA-256 digest is 32 bytes long. -/
theorem sha256_length (msg : List Nat) : (sha256 msg).length = 32 := by
  rw [sha256, wordsToBytes_length, foldl_sha256Compress_length _ _ (by rfl)]

/-- C7: for every value `Pkce::generate` produces from its 32 random bytes,
the verifier is the unpadded URL-safe base64 encoding of those bytes and is
43 characters long, the challenge is the unpadded URL-safe base64 encoding
of the SHA-256 digest of the verifier and is 43 characters long, the
challenge method is exactly `"S256"`, and distinct random draws always
yield distinct verifiers (so two generations collide only when the two
32-byte random draws are identical). -/
theorem pkce_generate_spec (bytes : List Nat) (h32 : bytes.length = 32)
    (hbytes : ∀ x ∈ bytes, x < 256) :
    (Pkce.generate bytes).code_verifier = b64urlEncode bytes
  ∧ (Pkce.generate bytes).code_verifier.length = 43
  ∧ (Pkce.generate bytes).code_challenge
      = b64urlEncode (sha256 ((Pkce.generate bytes).code_verifier.map Char.toNat))
  ∧ (Pkce.generate bytes).code_challenge.length = 43
  ∧ Pkce.code_challenge_method = "S256".data
  ∧ (∀ bytes2 : List Nat, bytes2.length = 32 → (∀ x ∈ bytes2, x < 256) →
      bytes2 ≠ bytes →
      (Pkce.generate bytes2).code_verifier ≠ (Pkce.generate bytes).code_verifier) := by
  refine ⟨rfl, ?_, rfl, ?_, rfl, ?_⟩
  · rw [Pkce.generate]
    rw [b64urlEncode_length, h32]
  · rw [Pkce.generate]
    rw [b64urlEncode_length, sha256_length]
  · intro bytes2 hlen2 hb2 hne hcontra
    exact hne (b64urlEncode_injOn bytes2 bytes hb2 hbytes hcontra)

theorem pkce_generate_spec_witness :
    (Pkce.generate (List.replicate 32 7)).code_verifier.length = 43
  ∧ (Pkce.generate (List.replicate 32 9)).code_verifier
      ≠ (Pkce.generate (List.replicate 32 7)).code_verifier := by
  have hb : ∀ k : Nat, ∀ x ∈ List.replicate 32 k, k < 256 → x < 256 := by
    intro k x hx hk
    rw [List.eq_of_mem_replicate hx]
    exact hk
  have h := pkce_generate_spec (List.replicate 32 7) (by simp)
    (fun x hx => hb 7 x hx (by omega))
  exact ⟨h.2.1, h.2.2.2.2.2 (List.replicate 32 9) (by simp)
    (fun x hx => hb 9 x hx (by omega)) (by decide)⟩

end Schlussel
